import Mathlib

/-!
Shallow embedding of `virtual_queue_manager.py` (Virtual Queue Manager).

The Python module defines two classes:

* `ServiceQueue` — per-service FIFO waiting line with counters
  (`total_bookings_created`, `next_token_number`, `served_count`) and a
  fixed configuration (`daily_capacity`, `avg_service_minutes`).
* `VirtualQueueManager` — an insertion-ordered dict of `ServiceQueue`s, a
  global `booking_index` dict from token to `Booking`, and an append-only
  `history` list of per-service waiting-count snapshots.

Python dicts are modelled as association lists whose insert updates an
existing key in place (keeping its position) and otherwise appends — this
matches CPython dict semantics for assignment and iteration order.
Mutation is modelled as explicit state passing: each method returns its
Python return value paired with the updated object.  Python `int`s here
are all non-negative (counters, lengths, and the configured positive
capacities and service times), so they are modelled as `Nat`.
-/

namespace VQM

/-- Booking record, from the frozen dataclass `Booking` (lines 28-33). -/
structure Booking where
  token : String
  user_name : String
  service_id : String
  estimated_wait_minutes_at_booking : Nat
deriving DecidableEq

/-- Python dict lookup `d.get(k)`: first (unique) matching key. -/
def dictLookup {α : Type} : List (String × α) → String → Option α
  | [], _ => none
  | (k', v) :: rest, k => if k' = k then some v else dictLookup rest k

/-- Python dict assignment `d[k] = v`: update in place if the key is
present (keeping its position, as CPython does), else append. -/
def dictInsert {α : Type} : List (String × α) → String → α → List (String × α)
  | [], k, v => [(k, v)]
  | (k', v') :: rest, k, v =>
    if k' = k then (k', v) :: rest else (k', v') :: dictInsert rest k v

/-- State of `ServiceQueue` (lines 36-49): configuration fields plus the
mutable waiting deque and counters. -/
structure ServiceQueue where
  service_id : String
  display_name : String
  daily_capacity : Nat
  avg_service_minutes : Nat
  waiting : List Booking
  total_bookings_created : Nat
  next_token_number : Nat
  served_count : Nat
deriving DecidableEq

/-- `ServiceQueue.__init__` (lines 39-49): empty waiting line, zero
counters, token numbering starts at 1. -/
def ServiceQueue.init (service_id display_name : String)
    (daily_capacity avg_service_minutes : Nat) : ServiceQueue :=
  { service_id := service_id
    display_name := display_name
    daily_capacity := daily_capacity
    avg_service_minutes := avg_service_minutes
    waiting := []
    total_bookings_created := 0
    next_token_number := 1
    served_count := 0 }

/-- `ServiceQueue.is_full` (lines 51-52): `total_bookings_created >= daily_capacity`. -/
def ServiceQueue.is_full (s : ServiceQueue) : Bool :=
  decide (s.daily_capacity ≤ s.total_bookings_created)

/-- `ServiceQueue.people_waiting` (lines 54-55): `len(self.waiting)`. -/
def ServiceQueue.people_waiting (s : ServiceQueue) : Nat :=
  s.waiting.length

/-- `ServiceQueue.estimate_wait_minutes` (lines 57-59):
`len(self.waiting) * self.avg_service_minutes`. -/
def ServiceQueue.estimate_wait_minutes (s : ServiceQueue) : Nat :=
  s.waiting.length * s.avg_service_minutes

/-- Python's `str.upper()`: upper-case every character (service ids here
are ASCII). -/
def pyUpper (s : String) : String :=
  String.mk (s.data.map Char.toUpper)

/-- Python's `str.strip()`: drop leading and trailing whitespace. -/
def pyStrip (s : String) : String :=
  String.mk (((s.data.dropWhile Char.isWhitespace).reverse.dropWhile
    Char.isWhitespace).reverse)

/-- Python's `%03d` format: decimal digits of `n`, left-padded with zeros
to a minimum width of 3 (wider numbers keep all their digits). -/
def zeroPad3 (n : Nat) : String :=
  let s := Nat.repr n
  if s.length < 3 then String.mk (List.replicate (3 - s.length) '0') ++ s else s

/-- Token construction (line 65):
`f"{self.service_id.upper()}-{self.next_token_number:03d}"`. -/
def formatToken (service_id : String) (n : Nat) : String :=
  pyUpper service_id ++ "-" ++ zeroPad3 n

/-- `ServiceQueue.create_booking` (lines 61-76).  Returns `none` when
full (no mutation); otherwise builds the booking from the current token
number and wait estimate, appends it to `waiting`, and increments
`total_bookings_created` and `next_token_number`. -/
def ServiceQueue.create_booking (s : ServiceQueue) (user_name : String) :
    Option (Booking × ServiceQueue) :=
  if s.is_full then none
  else
    let booking : Booking :=
      { token := formatToken s.service_id s.next_token_number
        user_name := user_name
        service_id := s.service_id
        estimated_wait_minutes_at_booking := s.estimate_wait_minutes }
    some (booking,
      { s with
        waiting := s.waiting ++ [booking]
        total_bookings_created := s.total_bookings_created + 1
        next_token_number := s.next_token_number + 1 })

/-- `ServiceQueue.mark_next_served` (lines 78-83).  Returns `none` on an
empty waiting line; otherwise pops the front booking and increments
`served_count`. -/
def ServiceQueue.mark_next_served (s : ServiceQueue) :
    Option (Booking × ServiceQueue) :=
  match s.waiting with
  | [] => none
  | b :: rest => some (b, { s with waiting := rest, served_count := s.served_count + 1 })

/-- State of `VirtualQueueManager` (lines 86-104). -/
structure VirtualQueueManager where
  services : List (String × ServiceQueue)
  booking_index : List (String × Booking)
  history : List (List (String × Nat))
deriving DecidableEq

/-- `VirtualQueueManager._record_history` (lines 106-108): append the
per-service waiting-count snapshot, in services iteration order. -/
def record_history (m : VirtualQueueManager) : VirtualQueueManager :=
  { m with history := m.history ++ [m.services.map (fun p => (p.1, p.2.people_waiting))] }

/-- A service configuration tuple
`(service_id, display_name, daily_capacity, avg_minutes)`. -/
abbrev ServiceConfig := String × String × Nat × Nat

/-- `VirtualQueueManager.__init__` (lines 89-104): build one
`ServiceQueue` per config tuple (duplicate ids: last one wins), empty
booking index, then record one initial history snapshot. -/
def mkManager (service_configs : List ServiceConfig) : VirtualQueueManager :=
  record_history
    { services :=
        service_configs.foldl
          (fun acc c => dictInsert acc c.1 (ServiceQueue.init c.1 c.2.1 c.2.2.1 c.2.2.2))
          []
      booking_index := []
      history := [] }

/-- Failure message of `book_slot`/`mark_served` for an unknown service id
(lines 116 and 132): `f"Invalid service id: '{service_id}'."`. -/
def invalidServiceMsg (service_id : String) : String :=
  "Invalid service id: \x27" ++ service_id ++ "\x27."

/-- Failure message for a blank user name (line 119). -/
def emptyNameMsg : String := "User name cannot be empty."

/-- Failure message when the service is at capacity (line 123). -/
def fullCapacityMsg (display_name : String) : String :=
  "Service \x27" ++ display_name ++ "\x27 is at full daily capacity."

/-- Failure message for serving from an empty queue (line 136). -/
def emptyQueueMsg (display_name : String) : String :=
  "Queue is empty for service \x27" ++ display_name ++ "\x27."

/-- Success message of `mark_served` (line 139). -/
def servedMsg (token user_name : String) : String :=
  "Marked served: token " ++ token ++ " (" ++ user_name ++ ")."

/-- `VirtualQueueManager.book_slot` (lines 113-127): look the service up,
reject a blank (whitespace-only) name, delegate to `create_booking` with
the trimmed name, and on success index the booking by token and record a
history snapshot. -/
def book_slot (m : VirtualQueueManager) (user_name service_id : String) :
    (Bool × String × Option Booking) × VirtualQueueManager :=
  match dictLookup m.services service_id with
  | none => ((false, invalidServiceMsg service_id, none), m)
  | some service =>
    if pyStrip user_name = "" then
      ((false, emptyNameMsg, none), m)
    else
      match service.create_booking (pyStrip user_name) with
      | none => ((false, fullCapacityMsg service.display_name, none), m)
      | some (booking, service') =>
        ((true, "Booking confirmed.", some booking),
          record_history
            { m with
              services := dictInsert m.services service_id service'
              booking_index := dictInsert m.booking_index booking.token booking })

/-- `VirtualQueueManager.mark_served` (lines 129-139): look the service
up, delegate to `mark_next_served`, and on success record a history
snapshot. -/
def mark_served (m : VirtualQueueManager) (service_id : String) :
    (Bool × String × Option Booking) × VirtualQueueManager :=
  match dictLookup m.services service_id with
  | none => ((false, invalidServiceMsg service_id, none), m)
  | some service =>
    match service.mark_next_served with
    | none => ((false, emptyQueueMsg service.display_name, none), m)
    | some (served, service') =>
      ((true, servedMsg served.token served.user_name, some served),
        record_history { m with services := dictInsert m.services service_id service' })

/-- One row of `queue_status` (lines 144-153). -/
structure StatusRecord where
  waiting : Nat
  served : Nat
  booked_total : Nat
  capacity : Nat
  avg_service_minutes : Nat
  est_wait_new_user : Nat
deriving DecidableEq

/-- `VirtualQueueManager.queue_status` (lines 141-154): per-service live
summary in services iteration order.  The method only reads the manager,
so the returned state is the input state. -/
def queue_status (m : VirtualQueueManager) :
    List StatusRecord × VirtualQueueManager :=
  (m.services.map (fun p =>
    { waiting := p.2.people_waiting
      served := p.2.served_count
      booked_total := p.2.total_bookings_created
      capacity := p.2.daily_capacity
      avg_service_minutes := p.2.avg_service_minutes
      est_wait_new_user := p.2.estimate_wait_minutes }), m)

/-- An external operation on the manager: the two mutating entry points. -/
inductive Op where
  | book (user_name service_id : String)
  | serve (service_id : String)
deriving DecidableEq

/-- Apply one operation, returning the Python result triple and the new state. -/
def applyOp (m : VirtualQueueManager) : Op → (Bool × String × Option Booking) × VirtualQueueManager
  | Op.book u sid => book_slot m u sid
  | Op.serve sid => mark_served m sid

/-- Run a sequence of operations from a state. -/
def run (m : VirtualQueueManager) : List Op → VirtualQueueManager
  | [] => m
  | op :: rest => run (applyOp m op).2 rest

/-- Waiting line of the service keyed `sid` (empty if no such service). -/
def waitingOf (m : VirtualQueueManager) (sid : String) : List Booking :=
  match dictLookup m.services sid with
  | some s => s.waiting
  | none => []

/-- Next token number of the service keyed `sid` (1, its initial value,
if no such service — such a service never issues a booking). -/
def nextTokOf (m : VirtualQueueManager) (sid : String) : Nat :=
  match dictLookup m.services sid with
  | some s => s.next_token_number
  | none => 1

/-- Bookings returned by successful `book_slot` calls for service `sid`
along a run, in call order. -/
def admittedB (sid : String) : VirtualQueueManager → List Op → List Booking
  | _, [] => []
  | m, Op.book u sid' :: rest =>
    (match (book_slot m u sid').1.2.2 with
     | some b => if sid' = sid then [b] else []
     | none => []) ++ admittedB sid (book_slot m u sid').2 rest
  | m, Op.serve sid' :: rest => admittedB sid (mark_served m sid').2 rest

/-- Bookings returned by successful `mark_served` calls for service `sid`
along a run, in call order. -/
def servedB (sid : String) : VirtualQueueManager → List Op → List Booking
  | _, [] => []
  | m, Op.book u sid' :: rest => servedB sid (book_slot m u sid').2 rest
  | m, Op.serve sid' :: rest =>
    (match (mark_served m sid').1.2.2 with
     | some b => if sid' = sid then [b] else []
     | none => []) ++ servedB sid (mark_served m sid').2 rest

/-- Bookings returned by successful `book_slot` calls for any service
along a run, in call order. -/
def allAdmitted : VirtualQueueManager → List Op → List Booking
  | _, [] => []
  | m, Op.book u sid' :: rest =>
    (match (book_slot m u sid').1.2.2 with
     | some b => [b]
     | none => []) ++ allAdmitted (book_slot m u sid').2 rest
  | m, Op.serve sid' :: rest => allAdmitted (mark_served m sid').2 rest

/-- Number of successful mutating calls along a run. -/
def countSuccess : VirtualQueueManager → List Op → Nat
  | _, [] => 0
  | m, op :: rest =>
    (if (applyOp m op).1.1 then 1 else 0) + countSuccess (applyOp m op).2 rest

/-- Concrete two-service configuration used to evaluate theorems. -/
def cfgW : List ServiceConfig := [("doctor", "Doctor", 4, 10), ("cashier", "Cashier", 2, 4)]

/-- Concrete operation sequence on `cfgW`: three bookings and one serve. -/
def opsW : List Op :=
  [Op.book "Asha" "doctor", Op.book "Ben" "doctor", Op.serve "doctor", Op.book "Cara" "doctor"]

/-- The doctor queue state reached by `opsW` from `mkManager cfgW`. -/
def sW : ServiceQueue :=
  { service_id := "doctor", display_name := "Doctor", daily_capacity := 4
    avg_service_minutes := 10
    waiting := [Booking.mk "DOCTOR-002" "Ben" "doctor" 10,
                Booking.mk "DOCTOR-003" "Cara" "doctor" 10]
    total_bookings_created := 3, next_token_number := 4, served_count := 1 }

/-- Concrete one-service configuration with daily capacity 2. -/
def cfgF : List ServiceConfig := [("doctor", "Doctor", 2, 10)]

/-- Two bookings exhausting the capacity of `cfgF`'s single service. -/
def opsF : List Op := [Op.book "Asha" "doctor", Op.book "Ben" "doctor"]

/-- The doctor queue state reached by `opsF` from `mkManager cfgF`:
at full capacity. -/
def sF : ServiceQueue :=
  { service_id := "doctor", display_name := "Doctor", daily_capacity := 2
    avg_service_minutes := 10
    waiting := [Booking.mk "DOCTOR-001" "Asha" "doctor" 0,
                Booking.mk "DOCTOR-002" "Ben" "doctor" 10]
    total_bookings_created := 2, next_token_number := 3, served_count := 0 }

/-- Configuration whose two service ids coincide after upper-casing, so
both services issue the token `A-001`. -/
def cxCfg : List ServiceConfig := [("a", "Alpha", 2, 1), ("A", "AlphaUpper", 2, 1)]

/-! Association-list (Python dict) lemmas. -/

theorem dictLookup_insert_self {α : Type} (d : List (String × α)) (k : String) (v : α) :
    dictLookup (dictInsert d k v) k = some v := by
  induction d with
  | nil => simp [dictInsert, dictLookup]
  | cons p rest ih =>
    by_cases h : p.1 = k
    · simp [dictInsert, dictLookup, h]
    · simp [dictInsert, dictLookup, h, ih]

theorem dictLookup_insert_ne {α : Type} (d : List (String × α)) (k k'' : String) (v : α)
    (h : k ≠ k'') : dictLookup (dictInsert d k v) k'' = dictLookup d k'' := by
  induction d with
  | nil => simp [dictInsert, dictLookup, h]
  | cons p rest ih =>
    rcases p with ⟨pk, pv⟩
    by_cases hp : pk = k
    · subst hp
      simp only [dictInsert, if_pos rfl]
      simp [dictLookup, h]
    · simp only [dictInsert, if_neg hp]
      by_cases hq : pk = k''
      · simp [dictLookup, hq]
      · simp [dictLookup, hq, ih]

theorem dictLookup_insert_isSome {α : Type} (d : List (String × α)) (k k'' : String) (v : α)
    (h : (dictLookup d k'').isSome) : (dictLookup (dictInsert d k v) k'').isSome := by
  by_cases hk : k = k''
  · subst hk; rw [dictLookup_insert_self]; rfl
  · rwa [dictLookup_insert_ne d k k'' v hk]

theorem mem_dictInsert {α : Type} (d : List (String × α)) (k : String) (v : α)
    (p : String × α) (hp : p ∈ dictInsert d k v) : p = (k, v) ∨ p ∈ d := by
  induction d with
  | nil => simpa [dictInsert] using hp
  | cons q rest ih =>
    rcases q with ⟨qk, qv⟩
    by_cases h : qk = k
    · subst h
      simp only [dictInsert, if_pos rfl] at hp
      rcases List.mem_cons.1 hp with h1 | h1
      · exact Or.inl h1
      · exact Or.inr (List.mem_cons_of_mem _ h1)
    · simp only [dictInsert, if_neg h] at hp
      rcases List.mem_cons.1 hp with h1 | h1
      · exact Or.inr (h1 ▸ List.mem_cons_self _ _)
      · rcases ih h1 with h2 | h2
        · exact Or.inl h2
        · exact Or.inr (List.mem_cons_of_mem _ h2)

theorem dictLookup_mem {α : Type} (d : List (String × α)) (k : String) (v : α)
    (h : dictLookup d k = some v) : (k, v) ∈ d := by
  induction d with
  | nil => simp [dictLookup] at h
  | cons p rest ih =>
    rcases p with ⟨pk, pv⟩
    by_cases hp : pk = k
    · subst hp
      simp only [dictLookup, if_pos rfl] at h
      injection h with h
      subst h
      exact List.mem_cons_self _ _
    · simp only [dictLookup, if_neg hp] at h
      exact List.mem_cons_of_mem _ (ih h)

/-! Equation and inversion lemmas for the `ServiceQueue` operations. -/

theorem is_full_eq_false_iff (s : ServiceQueue) :
    s.is_full = false ↔ s.total_bookings_created < s.daily_capacity := by
  simp [ServiceQueue.is_full]

theorem create_booking_of_is_full {s : ServiceQueue} (u : String) (h : s.is_full = true) :
    s.create_booking u = none := by
  simp [ServiceQueue.create_booking, h]

theorem create_booking_inv {s : ServiceQueue} {u : String} {b : Booking} {s' : ServiceQueue}
    (h : s.create_booking u = some (b, s')) :
    s.is_full = false ∧
    b.token = formatToken s.service_id s.next_token_number ∧
    b.user_name = u ∧
    b.service_id = s.service_id ∧
    b.estimated_wait_minutes_at_booking = s.waiting.length * s.avg_service_minutes ∧
    s'.waiting = s.waiting ++ [b] ∧
    s'.total_bookings_created = s.total_bookings_created + 1 ∧
    s'.next_token_number = s.next_token_number + 1 ∧
    s'.served_count = s.served_count ∧
    s'.service_id = s.service_id ∧
    s'.display_name = s.display_name ∧
    s'.daily_capacity = s.daily_capacity ∧
    s'.avg_service_minutes = s.avg_service_minutes := by
  by_cases hf : s.is_full
  · rw [create_booking_of_is_full u hf] at h
    cases h
  · rw [Bool.not_eq_true] at hf
    simp only [ServiceQueue.create_booking, hf, Bool.false_eq_true, if_false,
      Option.some.injEq, Prod.mk.injEq] at h
    obtain ⟨hb, hs⟩ := h
    subst hb
    subst hs
    exact ⟨hf, rfl, rfl, rfl, rfl, rfl, rfl, rfl, rfl, rfl, rfl, rfl, rfl⟩

theorem mark_next_served_of_nil {s : ServiceQueue} (h : s.waiting = []) :
    s.mark_next_served = none := by
  simp [ServiceQueue.mark_next_served, h]

theorem mark_next_served_inv {s : ServiceQueue} {b : Booking} {s' : ServiceQueue}
    (h : s.mark_next_served = some (b, s')) :
    s.waiting = b :: s'.waiting ∧
    s'.served_count = s.served_count + 1 ∧
    s'.total_bookings_created = s.total_bookings_created ∧
    s'.next_token_number = s.next_token_number ∧
    s'.service_id = s.service_id ∧
    s'.display_name = s.display_name ∧
    s'.daily_capacity = s.daily_capacity ∧
    s'.avg_service_minutes = s.avg_service_minutes := by
  rcases hw : s.waiting with _ | ⟨b0, t⟩
  · rw [mark_next_served_of_nil hw] at h
    cases h
  · simp only [ServiceQueue.mark_next_served, hw, Option.some.injEq, Prod.mk.injEq] at h
    obtain ⟨hb, hs⟩ := h
    subst hb
    subst hs
    exact ⟨rfl, rfl, rfl, rfl, rfl, rfl, rfl, rfl⟩

/-! Unfolding lemmas for the manager operations. -/

theorem record_history_services (m : VirtualQueueManager) :
    (record_history m).services = m.services := rfl

theorem record_history_booking_index (m : VirtualQueueManager) :
    (record_history m).booking_index = m.booking_index := rfl

theorem record_history_history_length (m : VirtualQueueManager) :
    (record_history m).history.length = m.history.length + 1 := by
  simp [record_history]

theorem run_nil (m : VirtualQueueManager) : run m [] = m := rfl

theorem run_cons (m : VirtualQueueManager) (op : Op) (rest : List Op) :
    run m (op :: rest) = run (applyOp m op).2 rest := rfl

theorem applyOp_book (m : VirtualQueueManager) (u sid : String) :
    applyOp m (Op.book u sid) = book_slot m u sid := rfl

theorem applyOp_serve (m : VirtualQueueManager) (sid : String) :
    applyOp m (Op.serve sid) = mark_served m sid := rfl

/-- Case recipe for `book_slot`: either it fails, returning no booking
and the unchanged state, or the service exists, `create_booking` on it
succeeds, and the result state updates that service, indexes the
booking, and records history. -/
theorem book_slot_rec (m : VirtualQueueManager) (u sid : String) :
    ((book_slot m u sid).1.1 = false ∧ (book_slot m u sid).1.2.2 = none ∧
      (book_slot m u sid).2 = m)
    ∨ ∃ s b s', dictLookup m.services sid = some s ∧
        s.create_booking (pyStrip u) = some (b, s') ∧
        book_slot m u sid =
          ((true, "Booking confirmed.", some b),
            record_history
              { m with
                services := dictInsert m.services sid s'
                booking_index := dictInsert m.booking_index b.token b }) := by
  rcases h1 : dictLookup m.services sid with _ | s
  · left; simp [book_slot, h1]
  · by_cases h2 : pyStrip u = ""
    · left; simp [book_slot, h1, h2]
    · rcases h3 : s.create_booking (pyStrip u) with _ | ⟨b, s'⟩
      · left; simp [book_slot, h1, h2, h3]
      · right; exact ⟨s, b, s', rfl, h3, by simp [book_slot, h1, h2, h3]⟩

/-- Case recipe for `mark_served`: either it fails, returning no booking
and the unchanged state, or the service exists, `mark_next_served` on it
succeeds, and the result state updates that service and records history. -/
theorem mark_served_rec (m : VirtualQueueManager) (sid : String) :
    ((mark_served m sid).1.1 = false ∧ (mark_served m sid).1.2.2 = none ∧
      (mark_served m sid).2 = m)
    ∨ ∃ s b s', dictLookup m.services sid = some s ∧
        s.mark_next_served = some (b, s') ∧
        mark_served m sid =
          ((true, servedMsg b.token b.user_name, some b),
            record_history { m with services := dictInsert m.services sid s' }) := by
  rcases h1 : dictLookup m.services sid with _ | s
  · left; simp [mark_served, h1]
  · rcases h2 : s.mark_next_served with _ | ⟨b, s'⟩
    · left; simp [mark_served, h1, h2]
    · right; exact ⟨s, b, s', rfl, h2, by simp [mark_served, h1, h2]⟩

/-! Invariant preservation machinery over reachable states. -/

theorem applyOp_preserves (P : String → ServiceQueue → Prop)
    (hb : ∀ k s u b s', s.create_booking u = some (b, s') → P k s → P k s')
    (hm : ∀ k s b s', s.mark_next_served = some (b, s') → P k s → P k s')
    (m : VirtualQueueManager) (op : Op)
    (h : ∀ k s, dictLookup m.services k = some s → P k s) :
    ∀ k s, dictLookup ((applyOp m op).2).services k = some s → P k s := by
  intro k s hs
  cases op with
  | book u sid =>
    rcases book_slot_rec m u sid with ⟨_, _, hst⟩ | ⟨s0, b, s0', h1, h3, heq⟩
    · rw [applyOp_book, hst] at hs
      exact h k s hs
    · simp only [applyOp_book, heq, record_history_services] at hs
      by_cases hk : sid = k
      · subst hk
        rw [dictLookup_insert_self] at hs
        injection hs with hs
        subst hs
        exact hb sid s0 (pyStrip u) b s0' h3 (h sid s0 h1)
      · rw [dictLookup_insert_ne _ _ _ _ hk] at hs
        exact h k s hs
  | serve sid =>
    rcases mark_served_rec m sid with ⟨_, _, hst⟩ | ⟨s0, b, s0', h1, h2, heq⟩
    · rw [applyOp_serve, hst] at hs
      exact h k s hs
    · simp only [applyOp_serve, heq, record_history_services] at hs
      by_cases hk : sid = k
      · subst hk
        rw [dictLookup_insert_self] at hs
        injection hs with hs
        subst hs
        exact hm sid s0 b s0' h2 (h sid s0 h1)
      · rw [dictLookup_insert_ne _ _ _ _ hk] at hs
        exact h k s hs

theorem run_preserves (P : String → ServiceQueue → Prop)
    (hb : ∀ k s u b s', s.create_booking u = some (b, s') → P k s → P k s')
    (hm : ∀ k s b s', s.mark_next_served = some (b, s') → P k s → P k s') :
    ∀ (ops : List Op) (m : VirtualQueueManager),
      (∀ k s, dictLookup m.services k = some s → P k s) →
      ∀ k s, dictLookup (run m ops).services k = some s → P k s := by
  intro ops
  induction ops with
  | nil =>
    intro m h k s hs
    rw [run_nil] at hs
    exact h k s hs
  | cons op rest ih =>
    intro m h k s hs
    rw [run_cons] at hs
    exact ih _ (applyOp_preserves P hb hm m op h) k s hs

theorem mkManager_fold_mem (cfg : List ServiceConfig) :
    ∀ (acc : List (String × ServiceQueue)),
      (∀ p ∈ acc, ∃ dn cap avg, p.2 = ServiceQueue.init p.1 dn cap avg) →
      ∀ p ∈ cfg.foldl
          (fun acc c => dictInsert acc c.1 (ServiceQueue.init c.1 c.2.1 c.2.2.1 c.2.2.2)) acc,
        ∃ dn cap avg, p.2 = ServiceQueue.init p.1 dn cap avg := by
  induction cfg with
  | nil =>
    intro acc h p hp
    rw [List.foldl_nil] at hp
    exact h p hp
  | cons c rest ih =>
    intro acc h p hp
    rw [List.foldl_cons] at hp
    refine ih _ ?_ p hp
    intro q hq
    rcases mem_dictInsert _ _ _ _ hq with h1 | h1
    · subst h1
      exact ⟨c.2.1, c.2.2.1, c.2.2.2, rfl⟩
    · exact h q h1

theorem mkManager_lookup_init (cfg : List ServiceConfig) (k : String) (s : ServiceQueue)
    (h : dictLookup (mkManager cfg).services k = some s) :
    ∃ dn cap avg, s = ServiceQueue.init k dn cap avg := by
  have hm : (k, s) ∈ (mkManager cfg).services := dictLookup_mem _ _ _ h
  exact mkManager_fold_mem cfg [] (fun p hp => absurd hp (List.not_mem_nil p)) (k, s) hm

/-- A single `book_slot` call on a service whose lifetime booking count
has reached its daily capacity fails and changes nothing. -/
theorem book_slot_full_gate (m : VirtualQueueManager) (u sid : String) (s : ServiceQueue)
    (h1 : dictLookup m.services sid = some s)
    (h2 : s.daily_capacity ≤ s.total_bookings_created) :
    (book_slot m u sid).1.1 = false ∧ (book_slot m u sid).1.2.2 = none ∧
      (book_slot m u sid).2 = m := by
  have hf : s.is_full = true := by
    simp [ServiceQueue.is_full, h2]
  by_cases hn : pyStrip u = ""
  · simp [book_slot, h1, hn]
  · simp [book_slot, h1, hn, create_booking_of_is_full _ hf]

/-- The set of service keys never changes: a key present in `services`
is still present after any run. -/
theorem run_services_isSome (ops : List Op) :
    ∀ (m : VirtualQueueManager) (sid : String),
      (dictLookup m.services sid).isSome →
      (dictLookup (run m ops).services sid).isSome := by
  induction ops with
  | nil =>
    intro m sid h
    rwa [run_nil]
  | cons op rest ih =>
    intro m sid h
    rw [run_cons]
    refine ih _ sid ?_
    cases op with
    | book u sid' =>
      rcases book_slot_rec m u sid' with ⟨_, _, hst⟩ | ⟨s0, b, s0', h1, h3, heq⟩
      · rwa [applyOp_book, hst]
      · simp only [applyOp_book, heq, record_history_services]
        exact dictLookup_insert_isSome _ _ _ _ h
    | serve sid' =>
      rcases mark_served_rec m sid' with ⟨_, _, hst⟩ | ⟨s0, b, s0', h1, h2, heq⟩
      · rwa [applyOp_serve, hst]
      · simp only [applyOp_serve, heq, record_history_services]
        exact dictLookup_insert_isSome _ _ _ _ h

/-- A service that has reached its daily capacity stays at (or above)
capacity through any further operations. -/
theorem run_stays_full (ops : List Op) (m : VirtualQueueManager) (sid : String)
    (s : ServiceQueue) (h1 : dictLookup m.services sid = some s)
    (h2 : s.daily_capacity ≤ s.total_bookings_created) :
    ∀ s2, dictLookup (run m ops).services sid = some s2 →
      s2.daily_capacity ≤ s2.total_bookings_created := by
  intro s2 h3
  refine run_preserves (fun k q => k = sid → q.daily_capacity ≤ q.total_bookings_created)
    ?_ ?_ ops m ?_ sid s2 h3 rfl
  · intro k s0 u0 b s0' hc hP hk
    subst hk
    obtain ⟨hful, _⟩ := create_booking_inv hc
    rw [is_full_eq_false_iff] at hful
    have h4 := hP rfl
    omega
  · intro k s0 b s0' hm2 hP hk
    subst hk
    obtain ⟨_, _, ht, _, _, _, hcap, _⟩ := mark_next_served_inv hm2
    rw [ht, hcap]
    exact hP rfl
  · intro k s0 h0 hk
    subst hk
    rw [h0] at h1
    injection h1 with h1
    subst h1
    exact h2

/-- C1: for every manager state reachable by any sequence of `book_slot`
and `mark_served` calls from construction, every configured service
satisfies `total_bookings_created == served_count + len(waiting)`. -/
theorem C1_booking_conservation (cfg : List ServiceConfig) (ops : List Op) (sid : String)
    (s : ServiceQueue) (h : dictLookup (run (mkManager cfg) ops).services sid = some s) :
    s.total_bookings_created = s.served_count + s.waiting.length := by
  refine run_preserves
    (fun _ q => q.total_bookings_created = q.served_count + q.waiting.length)
    ?_ ?_ ops (mkManager cfg) ?_ sid s h
  · intro k s0 u b s0' hc hP
    obtain ⟨_, _, _, _, _, hw, ht, _, hsc, _⟩ := create_booking_inv hc
    rw [ht, hw, hsc, List.length_append, hP]
    simp [Nat.add_assoc]
  · intro k s0 b s0' hm2 hP
    obtain ⟨hw, hsc, ht, _⟩ := mark_next_served_inv hm2
    rw [ht, hsc, hP, hw]
    simp [List.length_cons]
    omega
  · intro k s0 h0
    obtain ⟨dn, cap, avg, rfl⟩ := mkManager_lookup_init cfg k s0 h0
    simp [ServiceQueue.init]

theorem C1_witness :
    dictLookup (run (mkManager cfgW) opsW).services "doctor" = some sW ∧
    sW.total_bookings_created = sW.served_count + sW.waiting.length :=
  ⟨by decide, C1_booking_conservation cfgW opsW "doctor" sW (by decide)⟩

/-- C2: `is_full` is true iff the lifetime booking count has reached the
daily capacity; once a service's count equals its capacity, every later
`book_slot` for it (after any interleaved operations, including serves
that drain `waiting` to 0) fails and leaves the state unchanged; hence
in every reachable state the count never exceeds the capacity. -/
theorem C2_capacity_gate (cfg : List ServiceConfig) (ops ops2 : List Op) (u sid : String) :
    (∀ s : ServiceQueue, s.is_full = true ↔ s.daily_capacity ≤ s.total_bookings_created)
    ∧ (∀ m s, dictLookup m.services sid = some s →
        s.total_bookings_created = s.daily_capacity →
        (book_slot (run m ops2) u sid).1.1 = false ∧
          (book_slot (run m ops2) u sid).2 = run m ops2)
    ∧ (∀ s, dictLookup (run (mkManager cfg) ops).services sid = some s →
        s.total_bookings_created ≤ s.daily_capacity) := by
  refine ⟨fun s => by simp [ServiceQueue.is_full], ?_, ?_⟩
  · intro m s h1 h2
    have hsome := run_services_isSome ops2 m sid (by rw [h1]; rfl)
    rcases ho : dictLookup (run m ops2).services sid with _ | s2
    · rw [ho] at hsome
      simp at hsome
    · have hfull := run_stays_full ops2 m sid s h1 (le_of_eq h2.symm) s2 ho
      obtain ⟨ha, _, hc⟩ := book_slot_full_gate (run m ops2) u sid s2 ho hfull
      exact ⟨ha, hc⟩
  · intro s h
    refine run_preserves (fun _ q => q.total_bookings_created ≤ q.daily_capacity)
      ?_ ?_ ops (mkManager cfg) ?_ sid s h
    · intro k s0 u0 b s0' hc hP
      obtain ⟨hful, _, _, _, _, _, ht, _, _, _, _, hcap, _⟩ := create_booking_inv hc
      rw [is_full_eq_false_iff] at hful
      rw [ht, hcap]
      omega
    · intro k s0 b s0' hm2 hP
      obtain ⟨_, _, ht, _, _, _, hcap, _⟩ := mark_next_served_inv hm2
      rw [ht, hcap]
      exact hP
    · intro k s0 h0
      obtain ⟨dn, cap, avg, rfl⟩ := mkManager_lookup_init cfg k s0 h0
      simp [ServiceQueue.init]

theorem C2_witness :
    (dictLookup (run (mkManager cfgF) opsF).services "doctor" = some sF ∧
     sF.total_bookings_created = sF.daily_capacity ∧
     (book_slot (run (run (mkManager cfgF) opsF) [Op.serve "doctor", Op.serve "doctor"])
        "Zed" "doctor").1.1 = false) ∧
    (dictLookup (run (mkManager cfgF) opsF).services "doctor" = some sF ∧
     sF.total_bookings_created ≤ sF.daily_capacity) := by
  refine ⟨⟨by decide, by decide, ?_⟩, ⟨by decide, ?_⟩⟩
  · exact ((C2_capacity_gate cfgF opsF [Op.serve "doctor", Op.serve "doctor"] "Zed" "doctor").2.1
      (run (mkManager cfgF) opsF) sF (by decide) (by decide)).1
  · exact (C2_capacity_gate cfgF opsF [] "Zed" "doctor").2.2 sF (by decide)

/-! FIFO trace machinery: along any run, the bookings served so far
followed by the current waiting line equal the initial waiting line
followed by the bookings admitted so far. -/

theorem fifo_run (sid : String) : ∀ (ops : List Op) (m : VirtualQueueManager),
    servedB sid m ops ++ waitingOf (run m ops) sid
      = waitingOf m sid ++ admittedB sid m ops := by
  intro ops
  induction ops with
  | nil =>
    intro m
    simp [servedB, admittedB, run_nil]
  | cons op rest ih =>
    intro m
    cases op with
    | book u sid' =>
      rcases book_slot_rec m u sid' with ⟨_, hnone, hst⟩ | ⟨s0, b, s0', h1, h3, heq⟩
      · simp only [servedB, admittedB, run_cons, applyOp_book, hnone, hst, List.nil_append]
        exact ih m
      · obtain ⟨_, _, _, _, _, hw, _⟩ := create_booking_inv h3
        simp only [servedB, admittedB, run_cons, applyOp_book, heq]
        by_cases hk : sid' = sid
        · subst hk
          simp only [if_pos rfl]
          rw [ih (record_history
            { m with
              services := dictInsert m.services sid' s0'
              booking_index := dictInsert m.booking_index b.token b })]
          have hwm : waitingOf m sid' = s0.waiting := by
            simp [waitingOf, h1]
          have hwm' : waitingOf (record_history
              { m with
                services := dictInsert m.services sid' s0'
                booking_index := dictInsert m.booking_index b.token b }) sid'
              = s0.waiting ++ [b] := by
            simp [waitingOf, record_history_services, dictLookup_insert_self, hw]
          rw [hwm', hwm, List.append_assoc]
          simp
        · simp only [if_neg hk, List.nil_append]
          rw [ih (record_history
            { m with
              services := dictInsert m.services sid' s0'
              booking_index := dictInsert m.booking_index b.token b })]
          have hwm : waitingOf (record_history
              { m with
                services := dictInsert m.services sid' s0'
                booking_index := dictInsert m.booking_index b.token b }) sid
              = waitingOf m sid := by
            simp [waitingOf, record_history_services, dictLookup_insert_ne _ _ _ _ hk]
          rw [hwm]
    | serve sid' =>
      rcases mark_served_rec m sid' with ⟨_, hnone, hst⟩ | ⟨s0, b, s0', h1, h2, heq⟩
      · simp only [servedB, admittedB, run_cons, applyOp_serve, hnone, hst, List.nil_append]
        exact ih m
      · obtain ⟨hw, _⟩ := mark_next_served_inv h2
        simp only [servedB, admittedB, run_cons, applyOp_serve, heq]
        by_cases hk : sid' = sid
        · subst hk
          simp only [if_pos rfl]
          rw [List.append_assoc,
            ih (record_history { m with services := dictInsert m.services sid' s0' })]
          have hwm : waitingOf m sid' = b :: s0'.waiting := by
            simp [waitingOf, h1, hw]
          have hwm' : waitingOf
              (record_history { m with services := dictInsert m.services sid' s0' }) sid'
              = s0'.waiting := by
            simp [waitingOf, record_history_services, dictLookup_insert_self]
          rw [hwm', hwm]
          simp
        · simp only [if_neg hk, List.nil_append]
          rw [ih (record_history { m with services := dictInsert m.services sid' s0' })]
          have hwm : waitingOf
              (record_history { m with services := dictInsert m.services sid' s0' }) sid
              = waitingOf m sid := by
            simp [waitingOf, record_history_services, dictLookup_insert_ne _ _ _ _ hk]
          rw [hwm]

theorem initial_waitingOf (cfg : List ServiceConfig) (sid : String) :
    waitingOf (mkManager cfg) sid = [] := by
  rcases h : dictLookup (mkManager cfg).services sid with _ | s
  · simp [waitingOf, h]
  · obtain ⟨dn, cap, avg, rfl⟩ := mkManager_lookup_init cfg sid s h
    simp [waitingOf, h, ServiceQueue.init]

theorem fifo_from_init (cfg : List ServiceConfig) (ops : List Op) (sid : String) :
    servedB sid (mkManager cfg) ops ++ waitingOf (run (mkManager cfg) ops) sid
      = admittedB sid (mkManager cfg) ops := by
  have h := fifo_run sid ops (mkManager cfg)
  rwa [initial_waitingOf, List.nil_append] at h

/-- C3: bookings are served in FIFO admission order — along any run from
construction, the Nth booking returned by a successful `mark_served` for
a service is exactly the Nth booking successfully admitted for it. -/
theorem C3_fifo_order (cfg : List ServiceConfig) (ops : List Op) (sid : String) (n : Nat)
    (h : n < (servedB sid (mkManager cfg) ops).length) :
    (admittedB sid (mkManager cfg) ops)[n]? = (servedB sid (mkManager cfg) ops)[n]? := by
  rw [← fifo_from_init cfg ops sid]
  exact List.getElem?_append_left h

theorem C3_witness :
    0 < (servedB "doctor" (mkManager cfgW) opsW).length ∧
    (admittedB "doctor" (mkManager cfgW) opsW)[0]?
      = (servedB "doctor" (mkManager cfgW) opsW)[0]? :=
  ⟨by decide, C3_fifo_order cfgW opsW "doctor" 0 (by decide)⟩

/-! Token trace machinery: the k-th admitted booking of a service is
issued the token built from the next token number at the start of the
run plus k. -/

theorem mkManager_keyed (cfg : List ServiceConfig) :
    ∀ k s, dictLookup (mkManager cfg).services k = some s → s.service_id = k := by
  intro k s h
  obtain ⟨dn, cap, avg, rfl⟩ := mkManager_lookup_init cfg k s h
  rfl

theorem initial_nextTokOf (cfg : List ServiceConfig) (sid : String) :
    nextTokOf (mkManager cfg) sid = 1 := by
  rcases h : dictLookup (mkManager cfg).services sid with _ | s
  · simp [nextTokOf, h]
  · obtain ⟨dn, cap, avg, rfl⟩ := mkManager_lookup_init cfg sid s h
    simp [nextTokOf, h, ServiceQueue.init]

theorem token_run (sid : String) : ∀ (ops : List Op) (m : VirtualQueueManager),
    (∀ k s, dictLookup m.services k = some s → s.service_id = k) →
    ∀ (k : Nat) (b : Booking), (admittedB sid m ops)[k]? = some b →
      b.token = formatToken sid (nextTokOf m sid + k) := by
  intro ops
  induction ops with
  | nil =>
    intro m hkey k b hb
    simp [admittedB] at hb
  | cons op rest ih =>
    intro m hkey k b hb
    have hkey' : ∀ k s, dictLookup ((applyOp m op).2).services k = some s → s.service_id = k :=
      applyOp_preserves (fun k q => q.service_id = k)
        (fun k s u b s' hc hP => by
          obtain ⟨_, _, _, _, _, _, _, _, _, hsid, _⟩ := create_booking_inv hc
          rw [hsid]; exact hP)
        (fun k s b s' hm2 hP => by
          obtain ⟨_, _, _, _, hsid, _⟩ := mark_next_served_inv hm2
          rw [hsid]; exact hP)
        m op hkey
    cases op with
    | book u sid' =>
      simp only [applyOp_book] at hkey'
      rcases book_slot_rec m u sid' with ⟨_, hnone, hst⟩ | ⟨s0, b0, s0', h1, h3, heq⟩
      · simp only [admittedB, hnone, hst, List.nil_append] at hb
        exact ih m hkey k b hb
      · obtain ⟨_, htok, _, _, _, _, _, hn, _⟩ := create_booking_inv h3
        rw [heq] at hkey'
        simp only [admittedB, heq] at hb
        by_cases hk2 : sid' = sid
        · subst hk2
          rw [show (if sid' = sid' then [b0] else []) = [b0] from if_pos rfl] at hb
          have hkm : nextTokOf m sid' = s0.next_token_number := by
            simp [nextTokOf, h1]
          cases k with
          | zero =>
            rw [List.singleton_append, List.getElem?_cons_zero] at hb
            injection hb with hb
            subst hb
            rw [htok, hkey sid' s0 h1, hkm, Nat.add_zero]
          | succ k' =>
            rw [List.singleton_append, List.getElem?_cons_succ] at hb
            have hr := ih _ hkey' k' b hb
            have hnx : nextTokOf (record_history
                { m with
                  services := dictInsert m.services sid' s0'
                  booking_index := dictInsert m.booking_index b0.token b0 }) sid'
                = s0.next_token_number + 1 := by
              simp [nextTokOf, record_history_services, dictLookup_insert_self, hn]
            rw [hnx] at hr
            rw [hr, hkm]
            congr 1
            omega
        · simp only [if_neg hk2, List.nil_append] at hb
          have hr := ih _ hkey' k b hb
          have hnx : nextTokOf (record_history
              { m with
                services := dictInsert m.services sid' s0'
                booking_index := dictInsert m.booking_index b0.token b0 }) sid
              = nextTokOf m sid := by
            simp [nextTokOf, record_history_services, dictLookup_insert_ne _ _ _ _ hk2]
          rw [hnx] at hr
          exact hr
    | serve sid' =>
      simp only [applyOp_serve] at hkey'
      rcases mark_served_rec m sid' with ⟨_, hnone, hst⟩ | ⟨s0, b0, s0', h1, h2, heq⟩
      · simp only [admittedB, hst] at hb
        exact ih m hkey k b hb
      · obtain ⟨_, _, _, hn, _⟩ := mark_next_served_inv h2
        rw [heq] at hkey'
        simp only [admittedB, heq] at hb
        have hr := ih _ hkey' k b hb
        have hnx : nextTokOf
            (record_history { m with services := dictInsert m.services sid' s0' }) sid
            = nextTokOf m sid := by
          by_cases hk2 : sid' = sid
          · subst hk2
            simp [nextTokOf, record_history_services, dictLookup_insert_self, hn, h1]
          · simp [nextTokOf, record_history_services, dictLookup_insert_ne _ _ _ _ hk2]
        rw [hnx] at hr
        exact hr

set_option maxRecDepth 10000 in
set_option maxHeartbeats 1000000 in
theorem zeroPad3_length_of_lt : ∀ n, n < 1000 → (zeroPad3 n).length = 3 := by decide

/-- C4: every successfully issued token is the upper-cased service id, a
hyphen, and the `%03d` zero-padded sequence number (exactly 3 digits for
sequence numbers up to 999); positions in the admission order carry
sequence numbers 1, 2, 3, … with no gaps or reuse, regardless of
interleaved serve operations. -/
theorem C4_token_format (cfg : List ServiceConfig) (ops : List Op) (sid : String)
    (k : Nat) (b : Booking) (hb : (admittedB sid (mkManager cfg) ops)[k]? = some b) :
    b.token = pyUpper sid ++ "-" ++ zeroPad3 (k + 1)
    ∧ (k + 1 < 1000 → (zeroPad3 (k + 1)).length = 3) := by
  have h := token_run sid ops (mkManager cfg) (mkManager_keyed cfg) k b hb
  rw [initial_nextTokOf, Nat.add_comm] at h
  exact ⟨h, zeroPad3_length_of_lt (k + 1)⟩

theorem C4_witness :
    (admittedB "doctor" (mkManager cfgW) opsW)[1]?
      = some (Booking.mk "DOCTOR-002" "Ben" "doctor" 10) ∧
    (Booking.mk "DOCTOR-002" "Ben" "doctor" 10).token
      = pyUpper "doctor" ++ "-" ++ zeroPad3 (1 + 1) ∧
    1 + 1 < 1000 ∧ (zeroPad3 (1 + 1)).length = 3 :=
  ⟨by decide, (C4_token_format cfgW opsW "doctor" 1
      (Booking.mk "DOCTOR-002" "Ben" "doctor" 10) (by decide)).1, by decide,
   (C4_token_format cfgW opsW "doctor" 1
      (Booking.mk "DOCTOR-002" "Ben" "doctor" 10) (by decide)).2 (by decide)⟩

/-- C10: in every reachable state, `next_token_number` equals
`total_bookings_created + 1`; consequently the k-th successfully admitted
booking of a service carries sequence number k in its token (counting
from 1). -/
theorem C10_next_token_invariant (cfg : List ServiceConfig) (ops : List Op) (sid : String)
    (k : Nat) (b : Booking) :
    (∀ s, dictLookup (run (mkManager cfg) ops).services sid = some s →
      s.next_token_number = s.total_bookings_created + 1)
    ∧ ((admittedB sid (mkManager cfg) ops)[k]? = some b →
        b.token = formatToken sid (k + 1)) := by
  constructor
  · intro s h
    refine run_preserves (fun _ q => q.next_token_number = q.total_bookings_created + 1)
      ?_ ?_ ops (mkManager cfg) ?_ sid s h
    · intro k0 s0 u b0 s0' hc hP
      obtain ⟨_, _, _, _, _, _, ht, hn, _⟩ := create_booking_inv hc
      rw [hn, ht, hP]
    · intro k0 s0 b0 s0' hm2 hP
      obtain ⟨_, _, ht, hn, _⟩ := mark_next_served_inv hm2
      rw [hn, ht]
      exact hP
    · intro k0 s0 h0
      obtain ⟨dn, cap, avg, rfl⟩ := mkManager_lookup_init cfg k0 s0 h0
      rfl
  · intro hb
    have h := token_run sid ops (mkManager cfg) (mkManager_keyed cfg) k b hb
    rw [initial_nextTokOf, Nat.add_comm] at h
    exact h

theorem C10_witness :
    (dictLookup (run (mkManager cfgW) opsW).services "doctor" = some sW ∧
     sW.next_token_number = sW.total_bookings_created + 1) ∧
    ((admittedB "doctor" (mkManager cfgW) opsW)[0]?
        = some (Booking.mk "DOCTOR-001" "Asha" "doctor" 0) ∧
     (Booking.mk "DOCTOR-001" "Asha" "doctor" 0).token = formatToken "doctor" (0 + 1)) :=
  ⟨⟨by decide, (C10_next_token_invariant cfgW opsW "doctor" 0
      (Booking.mk "DOCTOR-001" "Asha" "doctor" 0)).1 sW (by decide)⟩,
   ⟨by decide, (C10_next_token_invariant cfgW opsW "doctor" 0
      (Booking.mk "DOCTOR-001" "Asha" "doctor" 0)).2 (by decide)⟩⟩

/-! Wait-estimate machinery. -/

/-- Along any run starting with an empty waiting line for `sid`, the
first booking admitted for `sid` was created while the line was still
empty, so its stored estimate is 0. -/
theorem first_admitted_est_zero (sid : String) : ∀ (ops : List Op) (m : VirtualQueueManager),
    waitingOf m sid = [] →
    ∀ b, (admittedB sid m ops).head? = some b →
      b.estimated_wait_minutes_at_booking = 0 := by
  intro ops
  induction ops with
  | nil =>
    intro m hw b hb
    simp [admittedB] at hb
  | cons op rest ih =>
    intro m hw b hb
    cases op with
    | book u sid' =>
      rcases book_slot_rec m u sid' with ⟨_, hnone, hst⟩ | ⟨s0, b0, s0', h1, h3, heq⟩
      · simp only [admittedB, hnone, hst, List.nil_append] at hb
        exact ih m hw b hb
      · simp only [admittedB, heq] at hb
        by_cases hk2 : sid' = sid
        · subst hk2
          rw [show (if sid' = sid' then [b0] else []) = [b0] from if_pos rfl] at hb
          rw [List.singleton_append, List.head?_cons] at hb
          injection hb with hb
          subst hb
          obtain ⟨_, _, _, _, hest, _⟩ := create_booking_inv h3
          have hw0 : s0.waiting = [] := by
            simp only [waitingOf, h1] at hw
            exact hw
          rw [hest, hw0]
          simp
        · rw [if_neg hk2, List.nil_append] at hb
          have hweq : waitingOf (record_history
              { m with
                services := dictInsert m.services sid' s0'
                booking_index := dictInsert m.booking_index b0.token b0 }) sid
              = waitingOf m sid := by
            simp [waitingOf, record_history_services, dictLookup_insert_ne _ _ _ _ hk2]
          exact ih _ (by rw [hweq]; exact hw) b hb
    | serve sid' =>
      rcases mark_served_rec m sid' with ⟨_, hnone, hst⟩ | ⟨s0, b0, s0', h1, h2, heq⟩
      · simp only [admittedB, hst] at hb
        exact ih m hw b hb
      · obtain ⟨hwcons, _⟩ := mark_next_served_inv h2
        simp only [admittedB, heq] at hb
        by_cases hk2 : sid' = sid
        · subst hk2
          have hw0 : s0.waiting = [] := by
            simp only [waitingOf, h1] at hw
            exact hw
          rw [hwcons] at hw0
          cases hw0
        · have hweq : waitingOf
              (record_history { m with services := dictInsert m.services sid' s0' }) sid
              = waitingOf m sid := by
            simp [waitingOf, record_history_services, dictLookup_insert_ne _ _ _ _ hk2]
          exact ih _ (by rw [hweq]; exact hw) b hb

/-- C5: a successful booking's stored estimate equals the waiting-line
length of its service at the moment of booking (people strictly ahead of
it) times `avg_service_minutes`; in particular the first booking ever
admitted for a service has estimate 0. -/
theorem C5_wait_estimate (cfg : List ServiceConfig) (ops : List Op) (u sid : String) :
    (∀ s b, dictLookup (run (mkManager cfg) ops).services sid = some s →
      (book_slot (run (mkManager cfg) ops) u sid).1.2.2 = some b →
      b.estimated_wait_minutes_at_booking = s.waiting.length * s.avg_service_minutes)
    ∧ (∀ b, (admittedB sid (mkManager cfg) ops).head? = some b →
        b.estimated_wait_minutes_at_booking = 0) := by
  constructor
  · intro s b h1 h2
    rcases book_slot_rec (run (mkManager cfg) ops) u sid with
      ⟨_, hnone, _⟩ | ⟨s0, b0, s0', h1', h3, heq⟩
    · rw [hnone] at h2
      cases h2
    · simp only [heq] at h2
      injection h2 with h2
      subst h2
      rw [h1'] at h1
      injection h1 with h1
      subst h1
      obtain ⟨_, _, _, _, hest, _⟩ := create_booking_inv h3
      exact hest
  · intro b hb
    exact first_admitted_est_zero sid ops (mkManager cfg) (initial_waitingOf cfg sid) b hb

theorem C5_witness :
    (dictLookup (run (mkManager cfgW) opsW).services "doctor" = some sW ∧
     (book_slot (run (mkManager cfgW) opsW) "Dana" "doctor").1.2.2
       = some (Booking.mk "DOCTOR-004" "Dana" "doctor" 20) ∧
     (Booking.mk "DOCTOR-004" "Dana" "doctor" 20).estimated_wait_minutes_at_booking
       = sW.waiting.length * sW.avg_service_minutes) ∧
    ((admittedB "doctor" (mkManager cfgW) opsW).head?
       = some (Booking.mk "DOCTOR-001" "Asha" "doctor" 0) ∧
     (Booking.mk "DOCTOR-001" "Asha" "doctor" 0).estimated_wait_minutes_at_booking = 0) :=
  ⟨⟨by decide, by decide,
    (C5_wait_estimate cfgW opsW "Dana" "doctor").1 sW _ (by decide) (by decide)⟩,
   ⟨by decide, (C5_wait_estimate cfgW opsW "Dana" "doctor").2 _ (by decide)⟩⟩

/-! History machinery. -/

theorem applyOp_history (m : VirtualQueueManager) (op : Op) :
    ((applyOp m op).1.1 = true → (applyOp m op).2.history.length = m.history.length + 1)
    ∧ ((applyOp m op).1.1 = false → (applyOp m op).2 = m) := by
  cases op with
  | book u sid =>
    rcases book_slot_rec m u sid with ⟨hf, _, hst⟩ | ⟨s0, b, s0', h1, h3, heq⟩
    · constructor
      · intro ht
        rw [applyOp_book, hf] at ht
        cases ht
      · intro _
        rw [applyOp_book, hst]
    · constructor
      · intro _
        simp [applyOp_book, heq, record_history]
      · intro hfalse
        simp only [applyOp_book, heq] at hfalse
        cases hfalse
  | serve sid =>
    rcases mark_served_rec m sid with ⟨hf, _, hst⟩ | ⟨s0, b, s0', h1, h2, heq⟩
    · constructor
      · intro ht
        rw [applyOp_serve, hf] at ht
        cases ht
      · intro _
        rw [applyOp_serve, hst]
    · constructor
      · intro _
        simp [applyOp_serve, heq, record_history]
      · intro hfalse
        simp only [applyOp_serve, heq] at hfalse
        cases hfalse

theorem history_run (ops : List Op) : ∀ m : VirtualQueueManager,
    (run m ops).history.length = m.history.length + countSuccess m ops := by
  induction ops with
  | nil =>
    intro m
    simp [run_nil, countSuccess]
  | cons op rest ih =>
    intro m
    rw [run_cons, ih, countSuccess]
    cases hsf : (applyOp m op).1.1 with
    | false =>
      rw [(applyOp_history m op).2 hsf]
      simp
    | true =>
      rw [(applyOp_history m op).1 hsf]
      simp
      omega

theorem mkManager_history_length (cfg : List ServiceConfig) :
    (mkManager cfg).history.length = 1 := by
  simp [mkManager, record_history]

/-- C6: the history log holds exactly one snapshot right after
construction; each successful `book_slot` or `mark_served` call appends
exactly one entry, each failed call appends nothing, so after any run
`len(history) = 1 +` the number of successful mutating calls. -/
theorem C6_history_append_only (cfg : List ServiceConfig) (ops : List Op)
    (m : VirtualQueueManager) (op : Op) :
    ((applyOp m op).1.1 = true →
      (applyOp m op).2.history.length = m.history.length + 1)
    ∧ ((applyOp m op).1.1 = false → (applyOp m op).2.history = m.history)
    ∧ (mkManager cfg).history.length = 1
    ∧ (run (mkManager cfg) ops).history.length
        = 1 + countSuccess (mkManager cfg) ops := by
  refine ⟨(applyOp_history m op).1, ?_, mkManager_history_length cfg, ?_⟩
  · intro hf
    rw [(applyOp_history m op).2 hf]
  · rw [history_run, mkManager_history_length]

theorem C6_witness :
    ((applyOp (mkManager cfgF) (Op.book "Asha" "doctor")).1.1 = true ∧
     (applyOp (mkManager cfgF) (Op.book "Asha" "doctor")).2.history.length
       = (mkManager cfgF).history.length + 1) ∧
    ((applyOp (mkManager cfgF) (Op.book "Zed" "unknown")).1.1 = false ∧
     (applyOp (mkManager cfgF) (Op.book "Zed" "unknown")).2.history
       = (mkManager cfgF).history) :=
  ⟨⟨by decide, (C6_history_append_only cfgF opsF (mkManager cfgF)
      (Op.book "Asha" "doctor")).1 (by decide)⟩,
   ⟨by decide, (C6_history_append_only cfgF opsF (mkManager cfgF)
      (Op.book "Zed" "unknown")).2.1 (by decide)⟩⟩

/-- C7: every failed `book_slot` or `mark_served` call returns success
`false`, no booking, one of the descriptive failure messages (invalid
service id, empty name, full daily capacity, or empty queue), and leaves
the whole manager state — services, counters, waiting lines, booking
index, history — unchanged. -/
theorem C7_failure_atomic (m : VirtualQueueManager) (u sid : String) :
    ((book_slot m u sid).1.1 = false →
      (book_slot m u sid).2 = m ∧ (book_slot m u sid).1.2.2 = none ∧
      ((book_slot m u sid).1.2.1 = invalidServiceMsg sid ∨
       (book_slot m u sid).1.2.1 = emptyNameMsg ∨
       ∃ s, dictLookup m.services sid = some s ∧
         (book_slot m u sid).1.2.1 = fullCapacityMsg s.display_name))
    ∧ ((mark_served m sid).1.1 = false →
      (mark_served m sid).2 = m ∧ (mark_served m sid).1.2.2 = none ∧
      ((mark_served m sid).1.2.1 = invalidServiceMsg sid ∨
       ∃ s, dictLookup m.services sid = some s ∧
         (mark_served m sid).1.2.1 = emptyQueueMsg s.display_name)) := by
  constructor
  · intro hf
    rcases h1 : dictLookup m.services sid with _ | s
    · have heq : book_slot m u sid = ((false, invalidServiceMsg sid, none), m) := by
        simp [book_slot, h1]
      rw [heq]
      exact ⟨rfl, rfl, Or.inl rfl⟩
    · by_cases h2 : pyStrip u = ""
      · have heq : book_slot m u sid = ((false, emptyNameMsg, none), m) := by
          simp [book_slot, h1, h2]
        rw [heq]
        exact ⟨rfl, rfl, Or.inr (Or.inl rfl)⟩
      · rcases h3 : s.create_booking (pyStrip u) with _ | ⟨b, s'⟩
        · have heq : book_slot m u sid = ((false, fullCapacityMsg s.display_name, none), m) := by
            simp [book_slot, h1, h2, h3]
          rw [heq]
          exact ⟨rfl, rfl, Or.inr (Or.inr ⟨s, rfl, rfl⟩)⟩
        · have heq : (book_slot m u sid).1.1 = true := by
            simp [book_slot, h1, h2, h3]
          rw [heq] at hf
          cases hf
  · intro hf
    rcases h1 : dictLookup m.services sid with _ | s
    · have heq : mark_served m sid = ((false, invalidServiceMsg sid, none), m) := by
        simp [mark_served, h1]
      rw [heq]
      exact ⟨rfl, rfl, Or.inl rfl⟩
    · rcases h2 : s.mark_next_served with _ | ⟨b, s'⟩
      · have heq : mark_served m sid = ((false, emptyQueueMsg s.display_name, none), m) := by
          simp [mark_served, h1, h2]
        rw [heq]
        exact ⟨rfl, rfl, Or.inr ⟨s, rfl, rfl⟩⟩
      · have heq : (mark_served m sid).1.1 = true := by
          simp [mark_served, h1, h2]
        rw [heq] at hf
        cases hf

theorem C7_witness :
    ((book_slot (mkManager cfgF) "Zed" "unknown").1.1 = false ∧
     (book_slot (mkManager cfgF) "Zed" "unknown").2 = mkManager cfgF ∧
     (book_slot (mkManager cfgF) "Zed" "unknown").1.2.2 = none) ∧
    ((mark_served (mkManager cfgF) "doctor").1.1 = false ∧
     (mark_served (mkManager cfgF) "doctor").2 = mkManager cfgF ∧
     (mark_served (mkManager cfgF) "doctor").1.2.2 = none) := by
  refine ⟨⟨by decide, ?_⟩, ⟨by decide, ?_⟩⟩
  · have h := (C7_failure_atomic (mkManager cfgF) "Zed" "unknown").1 (by decide)
    exact ⟨h.1, h.2.1⟩
  · have h := (C7_failure_atomic (mkManager cfgF) "Zed" "doctor").2 (by decide)
    exact ⟨h.1, h.2.1⟩

/-- C8: `queue_status` has no side effects — the manager state it
returns is the input state — and each returned record reports the live
waiting, served, booked-total, capacity, average-minutes and
new-user-estimate values of the corresponding service; on a freshly
constructed manager every record shows waiting 0, served 0, booked 0 and
estimate 0. -/
theorem C8_queue_status (m : VirtualQueueManager) (cfg : List ServiceConfig) :
    (queue_status m).2 = m
    ∧ (∀ (i : Nat) (p : String × ServiceQueue), m.services[i]? = some p →
        (queue_status m).1[i]? = some
          { waiting := p.2.people_waiting
            served := p.2.served_count
            booked_total := p.2.total_bookings_created
            capacity := p.2.daily_capacity
            avg_service_minutes := p.2.avg_service_minutes
            est_wait_new_user := p.2.estimate_wait_minutes })
    ∧ (∀ r ∈ (queue_status (mkManager cfg)).1,
        r.waiting = 0 ∧ r.served = 0 ∧ r.booked_total = 0 ∧ r.est_wait_new_user = 0) := by
  refine ⟨rfl, ?_, ?_⟩
  · intro i p hp
    simp [queue_status, List.getElem?_map, hp]
  · intro r hr
    simp only [queue_status] at hr
    rcases List.mem_map.1 hr with ⟨p, hpmem, hpr⟩
    obtain ⟨dn, cap, avg, hinit⟩ :=
      mkManager_fold_mem cfg [] (fun q hq => absurd hq (List.not_mem_nil q)) p hpmem
    subst hpr
    simp [hinit, ServiceQueue.init, ServiceQueue.people_waiting,
      ServiceQueue.estimate_wait_minutes]

theorem C8_witness :
    ((mkManager cfgF).services[0]?
       = some ("doctor", ServiceQueue.init "doctor" "Doctor" 2 10) ∧
     (queue_status (mkManager cfgF)).1[0]?
       = some
           { waiting := ("doctor", ServiceQueue.init "doctor" "Doctor" 2 10).2.people_waiting
             served := ("doctor", ServiceQueue.init "doctor" "Doctor" 2 10).2.served_count
             booked_total :=
               ("doctor", ServiceQueue.init "doctor" "Doctor" 2 10).2.total_bookings_created
             capacity := ("doctor", ServiceQueue.init "doctor" "Doctor" 2 10).2.daily_capacity
             avg_service_minutes :=
               ("doctor", ServiceQueue.init "doctor" "Doctor" 2 10).2.avg_service_minutes
             est_wait_new_user :=
               ("doctor", ServiceQueue.init "doctor" "Doctor" 2 10).2.estimate_wait_minutes }) ∧
    (StatusRecord.mk 0 0 0 2 10 0 ∈ (queue_status (mkManager cfgF)).1 ∧
     (StatusRecord.mk 0 0 0 2 10 0).waiting = 0 ∧
     (StatusRecord.mk 0 0 0 2 10 0).served = 0 ∧
     (StatusRecord.mk 0 0 0 2 10 0).booked_total = 0 ∧
     (StatusRecord.mk 0 0 0 2 10 0).est_wait_new_user = 0) :=
  ⟨⟨by decide, (C8_queue_status (mkManager cfgF) cfgF).2.1 0
      ("doctor", ServiceQueue.init "doctor" "Doctor" 2 10) (by decide)⟩,
   ⟨by decide, (C8_queue_status (mkManager cfgF) cfgF).2.2
      (StatusRecord.mk 0 0 0 2 10 0) (by decide)⟩⟩

/-! Booking-index machinery. -/

theorem book_slot_indexes (m : VirtualQueueManager) (u sid : String) (b : Booking)
    (h : (book_slot m u sid).1.2.2 = some b) :
    dictLookup (book_slot m u sid).2.booking_index b.token = some b := by
  rcases book_slot_rec m u sid with ⟨_, hnone, _⟩ | ⟨s0, b0, s0', h1, h3, heq⟩
  · rw [hnone] at h
    cases h
  · simp only [heq] at h ⊢
    injection h with h
    subst h
    rw [record_history_booking_index]
    exact dictLookup_insert_self _ _ _

theorem run_index_isSome (ops : List Op) : ∀ (m : VirtualQueueManager) (tok : String),
    (dictLookup m.booking_index tok).isSome →
    (dictLookup (run m ops).booking_index tok).isSome := by
  induction ops with
  | nil =>
    intro m tok h
    rwa [run_nil]
  | cons op rest ih =>
    intro m tok h
    rw [run_cons]
    refine ih _ tok ?_
    cases op with
    | book u sid =>
      rcases book_slot_rec m u sid with ⟨_, _, hst⟩ | ⟨s0, b0, s0', h1, h3, heq⟩
      · rwa [applyOp_book, hst]
      · simp only [applyOp_book, heq, record_history_booking_index]
        exact dictLookup_insert_isSome _ _ _ _ h
    | serve sid =>
      rcases mark_served_rec m sid with ⟨_, _, hst⟩ | ⟨s0, b0, s0', h1, h2, heq⟩
      · rwa [applyOp_serve, hst]
      · simp only [applyOp_serve, heq, record_history_booking_index]
        exact h

theorem mark_served_index (m : VirtualQueueManager) (sid : String) :
    (mark_served m sid).2.booking_index = m.booking_index := by
  rcases mark_served_rec m sid with ⟨_, _, hst⟩ | ⟨s0, b0, s0', h1, h2, heq⟩
  · rw [hst]
  · simp only [heq, record_history_booking_index]

theorem run_index_stable (ops : List Op) : ∀ (m : VirtualQueueManager) (tok : String) (b : Booking),
    dictLookup m.booking_index tok = some b →
    (∀ b' ∈ allAdmitted m ops, b'.token ≠ tok) →
    dictLookup (run m ops).booking_index tok = some b := by
  induction ops with
  | nil =>
    intro m tok b h _
    rwa [run_nil]
  | cons op rest ih =>
    intro m tok b h hall
    rw [run_cons]
    cases op with
    | book u sid =>
      rcases book_slot_rec m u sid with ⟨_, hnone, hst⟩ | ⟨s0, b0, s0', h1, h3, heq⟩
      · rw [applyOp_book, hst]
        refine ih m tok b h ?_
        intro b' hb'
        refine hall b' ?_
        simp only [allAdmitted, hnone, hst, List.nil_append]
        exact hb'
      · rw [applyOp_book, heq]
        have htok : b0.token ≠ tok := by
          refine hall b0 ?_
          simp only [allAdmitted, heq]
          exact List.mem_append_left _ (List.mem_cons_self _ _)
        refine ih _ tok b ?_ ?_
        · rw [record_history_booking_index]
          rw [dictLookup_insert_ne _ _ _ _ htok]
          exact h
        · intro b' hb'
          refine hall b' ?_
          simp only [allAdmitted, heq]
          exact List.mem_append_right _ hb'
    | serve sid =>
      rcases mark_served_rec m sid with ⟨_, _, hst⟩ | ⟨s0, b0, s0', h1, h2, heq⟩
      · rw [applyOp_serve, hst]
        refine ih m tok b h ?_
        intro b' hb'
        refine hall b' ?_
        simp only [allAdmitted, hst]
        exact hb'
      · rw [applyOp_serve, heq]
        refine ih _ tok b ?_ ?_
        · rw [record_history_booking_index]
          exact h
        · intro b' hb'
          refine hall b' ?_
          simp only [allAdmitted, heq]
          exact hb'

/-- C9 counterexample: with service ids `"a"` and `"A"`, both services
issue the token `A-001`; the first booking is successfully created, yet
after the second booking its index entry no longer maps to it — so a
successfully created booking does not always remain in the index. -/
theorem C9_counterexample :
    (book_slot (mkManager cxCfg) "u" "a").1.2.2 = some (Booking.mk "A-001" "u" "a" 0) ∧
    (book_slot (book_slot (mkManager cxCfg) "u" "a").2 "v" "A").1.1 = true ∧
    dictLookup (book_slot (book_slot (mkManager cxCfg) "u" "a").2 "v" "A").2.booking_index
        "A-001"
      ≠ some (Booking.mk "A-001" "u" "a" 0) :=
  ⟨by decide, by decide, by decide⟩

/-- C9 (amended): every successful booking is inserted into
`booking_index` under its token; a token present in the index is never
removed by any later operations; `mark_served` never modifies the index;
and an index entry keeps its booking as long as no later successful
booking is issued the same token (a reissue is possible only when
distinct configured service ids collide after upper-casing). -/
theorem C9_index_amended (m : VirtualQueueManager) (ops : List Op) (u sid tok : String)
    (b : Booking) :
    ((book_slot m u sid).1.2.2 = some b →
      dictLookup (book_slot m u sid).2.booking_index b.token = some b)
    ∧ ((dictLookup m.booking_index tok).isSome →
        (dictLookup (run m ops).booking_index tok).isSome)
    ∧ (mark_served m sid).2.booking_index = m.booking_index
    ∧ (dictLookup m.booking_index tok = some b →
        (∀ b' ∈ allAdmitted m ops, b'.token ≠ tok) →
        dictLookup (run m ops).booking_index tok = some b) :=
  ⟨book_slot_indexes m u sid b, run_index_isSome ops m tok, mark_served_index m sid,
   fun h hall => run_index_stable ops m tok b h hall⟩

theorem C9_witness :
    ((book_slot (mkManager cfgF) "Asha" "doctor").1.2.2
       = some (Booking.mk "DOCTOR-001" "Asha" "doctor" 0) ∧
     dictLookup (book_slot (mkManager cfgF) "Asha" "doctor").2.booking_index "DOCTOR-001"
       = some (Booking.mk "DOCTOR-001" "Asha" "doctor" 0)) ∧
    (dictLookup (run (mkManager cfgF) [Op.book "Asha" "doctor"]).booking_index "DOCTOR-001"
       = some (Booking.mk "DOCTOR-001" "Asha" "doctor" 0) ∧
     (∀ b' ∈ allAdmitted (run (mkManager cfgF) [Op.book "Asha" "doctor"])
        [Op.book "Ben" "doctor"], b'.token ≠ "DOCTOR-001") ∧
     dictLookup (run (run (mkManager cfgF) [Op.book "Asha" "doctor"])
        [Op.book "Ben" "doctor"]).booking_index "DOCTOR-001"
       = some (Booking.mk "DOCTOR-001" "Asha" "doctor" 0)) := by
  refine ⟨⟨by decide, ?_⟩, ⟨by decide, by decide, ?_⟩⟩
  · exact (C9_index_amended (mkManager cfgF) [] "Asha" "doctor" "DOCTOR-001"
      (Booking.mk "DOCTOR-001" "Asha" "doctor" 0)).1 (by decide)
  · exact (C9_index_amended (run (mkManager cfgF) [Op.book "Asha" "doctor"])
      [Op.book "Ben" "doctor"] "x" "y" "DOCTOR-001"
      (Booking.mk "DOCTOR-001" "Asha" "doctor" 0)).2.2.2 (by decide) (by decide)

end VQM
